import Mathlib

/-!
Verification development for the CSV normal-form detection engine
(`scripts/preprocessing/normal_forms.py`) and the `Dialect` value object
(`scripts/common/dialect.py`).

Python strings are modelled as `List Char`.  Delimiters and quote characters
are strings in the source (possibly empty), so they are modelled as `List Char`
as well; the `None` value that `split_row` accepts for its `quotechar`
parameter is modelled with `Option`.  Python's substring test `x in s` is
modelled by `<:+:` (note that in Python the empty string is a substring of
every string, which `<:+:` reproduces), `s.startswith(p)` by `<+:`, and
`s.rstrip(c)` by `List.rdropWhile`.
-/

set_option maxRecDepth 8000

namespace CSVW

abbrev Str := List Char

/-- The double-quote character (written via its code point to keep source
quoting unambiguous). -/
def dquote : Char := Char.ofNat 34

/-- The single-quote character. -/
def squote : Char := Char.ofNat 39

/-- The backslash character. -/
def bslash : Char := Char.ofNat 92

/-- Modelled from the spec: `common/utils.pairwise` is not under `src/`; the
spec says the escape pre-check "scans every adjacent character pair", which is
the standard `pairwise` recipe. -/
def pairwise (l : Str) : List (Char × Char) := l.zip l.tail

/-- Modelled from the spec: `common/escape.is_potential_escapechar` is not
under `src/`.  The spec only calls it "a plausible escape character under the
given text encoding" and its sole concrete example (scenario 4 of the testable
properties) is a backslash, so the model recognises exactly the backslash and
ignores the encoding. -/
def is_potential_escapechar (c : Char) (encoding : Str) : Bool := c == bslash

/-- Python's `str.split(sep)` for a non-empty separator `sep` (the source never
calls `split` with an empty separator, on which Python raises).  Occurrences
are consumed greedily left to right. -/
def consSplitHead (c : Char) : List Str → List Str
  | [] => [[c]]
  | r :: rs => (c :: r) :: rs

def pySplitF (sep : Str) : Nat → Str → List Str
  | _, [] => [[]]
  | 0, s => [s]
  | fuel + 1, c :: rest =>
    if sep ≠ [] ∧ sep <+: (c :: rest) then
      [] :: pySplitF sep fuel (rest.drop (sep.length - 1))
    else
      consSplitHead c (pySplitF sep fuel rest)

/-- `pySplit` runs `pySplitF` with enough fuel for the whole input (the fuel
only makes the recursion structural; the out-of-fuel case is unreachable
because each step consumes at least one character). -/
def pySplit (sep s : Str) : List Str := pySplitF sep s.length s

/-- `is_quoted_cell(cell, quotechar)` from `normal_forms.py`: the cell has
length at least 2 and starts and ends with the quote character.  The source
compares a single character against the quotechar string, hence `[a] == qc`. -/
def is_quoted_cell (cell : Str) (qc : Str) : Bool :=
  if cell.length < 2 then false
  else
    match cell.head?, cell.getLast? with
    | some a, some b => [a] == qc && [b] == qc
    | _, _ => false

def is_any_quoted_cell (cell : Str) : Bool :=
  is_quoted_cell cell [squote] || is_quoted_cell cell [dquote]

def is_any_partial_quoted_cell (cell : Str) : Bool :=
  if cell.length < 1 then false
  else
    match cell.head?, cell.getLast? with
    | some a, some b => a == dquote || a == squote || b == dquote || b == squote
    | _, _ => false

def is_empty_quoted (cell : Str) (qc : Str) : Bool :=
  cell.length == 2 && is_quoted_cell cell qc

def is_empty_unquoted (cell : Str) : Bool := cell.isEmpty

def is_any_empty (cell : Str) : Bool :=
  is_empty_unquoted cell || is_empty_quoted cell [squote] || is_empty_quoted cell [dquote]

/-- `has_delimiter(string, delim)`: Python's `delim in string`. -/
def has_delimiter (s : Str) (delim : Str) : Bool := decide (delim <:+: s)

/-- `has_nested_quotes(string, quotechar)`: `quotechar in string[1:-1]`. -/
def has_nested_quotes (s : Str) (qc : Str) : Bool :=
  decide (qc <:+: (s.drop 1).dropLast)

/-- `maybe_has_escapechar(data, encoding, delim, quotechar)`. -/
def maybe_has_escapechar (data encoding delim qc : Str) : Bool :=
  if ¬ delim <:+: data ∧ ¬ qc <:+: data then false
  else
    (pairwise data).any fun uv =>
      ([uv.2] == delim || [uv.2] == qc) && is_potential_escapechar uv.1 encoding

/-- `strip_trailing_crnl(data)`: the `while`/`rstrip` loops strip all trailing
newline characters and then all trailing carriage returns. -/
def strip_trailing_crnl (data : Str) : Str :=
  (data.rdropWhile (· == '\n')).rdropWhile (· == '\r')

/-- The restricted character class of `is_elementary`:
`[a-zA-Z0-9\.\_\&\-\@\+\%\(\)\ \/]`. -/
def elemChar (c : Char) : Bool :=
  ('a' ≤ c && c ≤ 'z') || ('A' ≤ c && c ≤ 'Z') || ('0' ≤ c && c ≤ '9') ||
  c == '.' || c == '_' || c == '&' || c == '-' || c == '@' || c == '+' ||
  c == '%' || c == '(' || c == ')' || c == ' ' || c == '/'

/-- `is_elementary(cell)`: `regex.fullmatch` of one-or-more characters from the
restricted class, i.e. the cell is non-empty and consists only of such
characters. -/
def is_elementary (cell : Str) : Bool :=
  !cell.isEmpty && cell.all elemChar

/-- `split_file(data)`.  The source returns `data.split(...)` on the detected
line ending; when no line terminator is present it returns the bare string
`data` instead of a one-element list.  Every consumer (`len(rows)`,
`for row in rows`, `rows[0]`) then treats that string as a sequence of
one-character strings, which this model reproduces with `d.map ([·])`. -/
def split_file (data : Str) : List Str :=
  let d := strip_trailing_crnl data
  if ['\r', '\n'] <:+: d then pySplit ['\r', '\n'] d
  else if ['\n'] <:+: d then pySplit ['\n'] d
  else if ['\r'] <:+: d then pySplit ['\r'] d
  else d.map fun c => [c]

/-- The state-passing loop of `split_row`'s quote-aware branch: state is
`(cells, current_cell, in_quotes)`. -/
def splitRowLoop (delim qs : Str) : Str → List Str × Str × Bool → List Str × Str × Bool
  | [], st => st
  | c :: rest, (cells, acc, inq) =>
    if [c] == delim && !inq then splitRowLoop delim qs rest (cells ++ [acc], [], inq)
    else if [c] == qs then splitRowLoop delim qs rest (cells, acc ++ [c], !inq)
    else splitRowLoop delim qs rest (cells, acc ++ [c], inq)

/-- `split_row(row, delim, quotechar)`: if the quotechar is `None` or does not
occur in the row, Python's naive `row.split(delim)`; otherwise the character
scan, with the final accumulator flushed only when non-empty. -/
def split_row (row : Str) (delim : Str) (quotechar : Option Str) : List Str :=
  match quotechar with
  | none => pySplit delim row
  | some qs =>
    if qs <:+: row then
      match splitRowLoop delim qs row ([], [], false) with
      | (cells, acc, _) => if acc.isEmpty then cells else cells ++ [acc]
    else pySplit delim row

def every_row_has_delim (rows : List Str) (delim : Str) : Bool :=
  rows.all fun r => has_delimiter r delim

def multiple_cell_per_row (rows : List Str) (delim : Str) (quotechar : Option Str) : Bool :=
  rows.all fun r => (split_row r delim quotechar).length != 1

/-- `even_rows`: the set of per-row cell counts has exactly one element. -/
def even_rows (rows : List Str) (delim : Str) (quotechar : Option Str) : Bool :=
  ((rows.map fun r => (split_row r delim quotechar).length).dedup).length == 1

def more_than_one_row (rows : List Str) : Bool := decide (rows.length > 1)

/-- The `form_escape_wrapper` decorator applied to every form tester. -/
def form_escape_wrapper (f : Str → Str → Str → Str → Bool × Option String)
    (data encoding delim qc : Str) : Bool × Option String :=
  if maybe_has_escapechar data encoding delim qc then (false, some "maybe_escape")
  else f data encoding delim qc

/-! ### Form testers without cross-form dependencies -/

/-- Body of `is_form_13` (the Eclipse `usagedata.csv` signature form). -/
def is_form_13_body (data encoding delim qc : Str) : Bool × Option String :=
  if ¬ "what,kind,bundleId,bundleVersion,description,time".toList <+: data then
    (false, some "no_match")
  else if qc = [] then
    (if dquote ∈ data then (false, some "has_quote") else (true, none))
  else if qc = [dquote] then
    (if ¬ dquote ∈ data then (false, some "has_no_quote") else (true, none))
  else (true, none)

def is_form_13 : Str → Str → Str → Str → Bool × Option String :=
  form_escape_wrapper is_form_13_body

/-- Case-insensitive anchored match of a literal pattern, modelling
`regex.match(pattern, data, regex.IGNORECASE)` for the ASCII-literal patterns
used by form 17. -/
def ci_starts (pat data : Str) : Bool :=
  decide ((pat.map Char.toLower) <+: (data.map Char.toLower))

/-- Body of `is_form_17` (government expense report signature).  The reason
string `"no_qoute"` reproduces the typo in the source. -/
def is_form_17_body (data encoding delim qc : Str) : Bool × Option String :=
  if ¬ ci_starts ("Department Family,Entity,Date,Expense Type,Expense Area," ++
      "Supplier,Transaction Number,Amount,VAT Registration Number").toList data then
    (false, some "no_match")
  else if [squote, ',', squote] <:+: data then (false, some "single_quote")
  else if qc = [dquote] then
    (if ¬ ([dquote, ','] <:+: data ∨ [',', dquote] <:+: data) then
      (false, some "no_qoute")
    else (true, none))
  else if qc = [] then
    (if dquote ∈ data then (false, some "has_quote") else (true, none))
  else (false, some "unexpected_quote")

def is_form_17 : Str → Str → Str → Str → Bool × Option String :=
  form_escape_wrapper is_form_17_body

/-- Body of `is_form_18` (a government data file signature). -/
def is_form_18_body (data encoding delim qc : Str) : Bool × Option String :=
  if ¬ "CPS outcomes by principal offence".toList <+: data then
    (false, some "no_match")
  else if [squote, ',', squote] <:+: data then (false, some "single_quote")
  else if qc = [dquote] then
    (if ¬ ([dquote, ','] <:+: data ∨ [',', dquote] <:+: data) then
      (false, some "no_quote")
    else (true, none))
  else if qc = [] then
    (if dquote ∈ data then (false, some "has_quote") else (true, none))
  else (false, some "unexpected_quote")

def is_form_18 : Str → Str → Str → Str → Bool × Option String :=
  form_escape_wrapper is_form_18_body

/-- Body of `is_form_19` (a government data file signature). -/
def is_form_19_body (data encoding delim qc : Str) : Bool × Option String :=
  if ¬ "RecordKey,SurveyKey,SurveyName".toList <+: data then
    (false, some "no_match")
  else if [squote, ',', squote] <:+: data then (false, some "single_quote")
  else if qc = [dquote] then
    (if ¬ ([dquote, ','] <:+: data ∨ [',', dquote] <:+: data) then
      (false, some "no_quote")
    else (true, none))
  else if qc = [] then
    (if dquote ∈ data then (false, some "has_quote") else (true, none))
  else (false, some "unexpected_quote")

def is_form_19 : Str → Str → Str → Str → Bool × Option String :=
  form_escape_wrapper is_form_19_body

/-- Body of `is_form_14` (files starting with `Format is tab separated`). -/
def is_form_14_body (data encoding delim qc : Str) : Bool × Option String :=
  if "Format is tab separated".toList <+: data then (true, none)
  else (false, some "no_match")

def is_form_14 : Str → Str → Str → Str → Bool × Option String :=
  form_escape_wrapper is_form_14_body

/-- Body of `is_form_15` (files starting with `Fornecedor;`). -/
def is_form_15_body (data encoding delim qc : Str) : Bool × Option String :=
  if "Fornecedor;".toList <+: data then (true, none)
  else (false, some "no_match")

def is_form_15 : Str → Str → Str → Str → Bool × Option String :=
  form_escape_wrapper is_form_15_body

/-- Body of `is_form_5` (Anthony Bowden railsim files).  The quoted literal
`data[idxs[0]:idxs[1]+1] == "'Readme.txt'"` slice check is modelled with
`drop`/`take`. -/
def is_form_5_body (data encoding delim qc : Str) : Bool × Option String :=
  if ";Originally developed by Anthony Bowden".toList <+: data then (true, none)
  else if dquote ∈ data then (false, some "unexpected")
  else if squote ∈ data then
    match (data.enum.filter fun p => p.2 == squote).map Prod.fst with
    | [i, j] =>
      if (data.drop i).take (j + 1 - i) = squote :: ("Readme.txt".toList ++ [squote]) then
        (false, some "not_railsim")
      else (false, some "unexpected")
    | _ => (false, some "unexpected")
  else (false, some "not_railsim")

def is_form_5 : Str → Str → Str → Str → Bool × Option String :=
  form_escape_wrapper is_form_5_body

/-- Character class `[^A-Za-z0-9.\_&-]` of form 6, complemented. -/
def form6_elem (c : Char) : Bool :=
  ('A' ≤ c && c ≤ 'Z') || ('a' ≤ c && c ≤ 'z') || ('0' ≤ c && c ≤ '9') ||
  c == '.' || c == '_' || c == '&' || c == '-'

def form6_row_check (row : Str) : Option String :=
  if is_any_quoted_cell row then some "quoted_cell"
  else if row.any fun c => !form6_elem c then some "non_elementary"
  else none

/-- Body of `is_form_6` (single column, no quotes, no delimiter). -/
def is_form_6_body (data encoding delim qc : Str) : Bool × Option String :=
  let rows := split_file data
  if !more_than_one_row rows then (false, some "single_row")
  else
    match rows.findSome? form6_row_check with
    | some r => (false, some r)
    | none => (true, none)

def is_form_6 : Str → Str → Str → Str → Bool × Option String :=
  form_escape_wrapper is_form_6_body

/-- Character class `[^A-Za-z0-9.\_&\- ]` of form 9, complemented. -/
def form9_elem (c : Char) : Bool :=
  ('A' ≤ c && c ≤ 'Z') || ('a' ≤ c && c ≤ 'z') || ('0' ≤ c && c ≤ '9') ||
  c == '.' || c == '_' || c == '&' || c == '-' || c == ' '

def form9_row_check (qc : Str) (row : Str) : Option String :=
  if !is_quoted_cell row qc then some "not_quoted"
  else if ((row.drop 1).dropLast).any fun c => !form9_elem c then some "non_elementary"
  else none

/-- Body of `is_form_9` (single column, each cell quoted). -/
def is_form_9_body (data encoding delim qc : Str) : Bool × Option String :=
  let rows := split_file data
  if !more_than_one_row rows then (false, some "single_row")
  else
    match rows.findSome? (form9_row_check qc) with
    | some r => (false, some r)
    | none => (true, none)

def is_form_9 : Str → Str → Str → Str → Bool × Option String :=
  form_escape_wrapper is_form_9_body

def isAlnumAscii (c : Char) : Bool :=
  ('a' ≤ c && c ≤ 'z') || ('A' ≤ c && c ≤ 'Z') || ('0' ≤ c && c ≤ '9')

/-- Anchored match of form 12's pattern
`,(male|female),([a-zA-Z0-9]+@[a-zA-Z0-9]+.com)` at the start of `t`.  The
unescaped `.` matches any character except a newline; the `[a-zA-Z0-9]+`
before `@` can only consume the maximal run (since `@` is not in the class),
while the one before `.com` requires a backtracking search. -/
def form12_at (t : Str) : Bool :=
  match t with
  | ',' :: rest =>
    let after_mf : Option Str :=
      if "male".toList <+: rest then some (rest.drop 4)
      else if "female".toList <+: rest then some (rest.drop 6)
      else none
    match after_mf with
    | none => false
    | some u =>
      match u with
      | ',' :: w =>
        let run := w.takeWhile isAlnumAscii
        if run.isEmpty then false
        else
          match w.drop run.length with
          | '@' :: z =>
            let run2 := z.takeWhile isAlnumAscii
            (List.range run2.length).any fun j =>
              match z.drop (j + 1) with
              | a :: more => a != '\n' && "com".toList <+: more
              | [] => false
          | _ => false
      | _ => false
  | _ => false

/-- `regex.findall(...)` produced at least one match: some suffix position
matches the pattern. -/
def form12_search (data : Str) : Bool := data.tails.any form12_at

/-- Body of `is_form_12` (the `,(male|female),email` signature form). -/
def is_form_12_body (data encoding delim qc : Str) : Bool × Option String :=
  if dquote ∈ data ∨ squote ∈ data then (false, some "has_quote")
  else if form12_search data then (true, none)
  else (false, some "no_match")

def is_form_12 : Str → Str → Str → Str → Bool × Option String :=
  form_escape_wrapper is_form_12_body

/-! ### Structural form testers -/

/-- The per-cell checks of form 1's loop, in source order. -/
def form1_cell_check (qc : Str) (cell : Str) : Option String :=
  if is_any_empty cell then some "empty_cell"
  else if !is_quoted_cell cell qc then some "unquoted_cell"
  else if has_nested_quotes cell qc then some "nested_quotes"
  else none

/-- Body of `is_form_1` (all cells quoted, no empty cells, no nested quotes,
more than one column). -/
def is_form_1_body (data encoding delim qc : Str) : Bool × Option String :=
  let rows := split_file data
  if !every_row_has_delim rows delim then (false, some "no_delim")
  else if !multiple_cell_per_row rows delim (some qc) then (false, some "single_cell")
  else if !even_rows rows delim (some qc) then (false, some "uneven_rows")
  else if !more_than_one_row rows then (false, some "single_row")
  else
    match rows.findSome? fun row =>
        (split_row row delim (some qc)).findSome? (form1_cell_check qc) with
    | some r => (false, some r)
    | none => (true, none)

def is_form_1 : Str → Str → Str → Str → Bool × Option String :=
  form_escape_wrapper is_form_1_body

/-- The per-cell checks of form 2's loop, in source order. -/
def form2_cell_check (cell : Str) : Option String :=
  if is_empty_unquoted cell then some "empty_unquoted"
  else if is_any_quoted_cell cell then some "quoted_cell"
  else if is_any_partial_quoted_cell cell then some "partial_quoted_cell"
  else if !is_elementary cell then some "non_elementary"
  else none

/-- Body of `is_form_2` (nothing quoted, no empty cells); forms 13, 18 and 17
are excluded first, in source order. -/
def is_form_2_body (data encoding delim qc : Str) : Bool × Option String :=
  if (is_form_13 data encoding delim qc).1 then (false, some "form_13")
  else if (is_form_18 data encoding delim qc).1 then (false, some "form_18")
  else if (is_form_17 data encoding delim qc).1 then (false, some "form_17")
  else
    let rows := split_file data
    if !every_row_has_delim rows delim then (false, some "no_delim")
    else if !multiple_cell_per_row rows delim none then (false, some "single_cell")
    else if !even_rows rows delim none then (false, some "uneven_rows")
    else if !more_than_one_row rows then (false, some "single_row")
    else
      match rows.findSome? fun row =>
          (split_row row delim none).findSome? form2_cell_check with
      | some r => (false, some r)
      | none => (true, none)

def is_form_2 : Str → Str → Str → Str → Bool × Option String :=
  form_escape_wrapper is_form_2_body

/-- Form 4's inner cell loop: threads the `found_quoted_with_delim` flag and
stops at the first failing check, in source order. -/
def form4_cells (delim qc : Str) : List Str → Bool → Bool × Option String
  | [], found => (found, none)
  | cell :: rest, found =>
    if is_quoted_cell cell qc && !has_delimiter cell delim then
      (found, some "quoted_no_delim")
    else
      let found' := found || (is_quoted_cell cell qc && has_delimiter cell delim)
      if is_any_empty cell then (found', some "empty_cell")
      else if !is_quoted_cell cell qc && !is_elementary cell then
        (found', some "non_elementary")
      else form4_cells delim qc rest found'

/-- Form 4's outer row loop: rejects a fully quoted row (with no interior
quote) before splitting it into cells. -/
def form4_rows (delim qc : Str) : List Str → Bool → Bool × Option String
  | [], found => (found, none)
  | row :: rest, found =>
    if is_quoted_cell row qc && ¬ qc <:+: (row.drop 1).dropLast then
      (found, some "quoted_row")
    else
      match form4_cells delim qc (split_row row delim (some qc)) found with
      | (found', none) => form4_rows delim qc rest found'
      | (found', some e) => (found', some e)

/-- Body of `is_form_4` (all unquoted except cells containing the delimiter,
at least one such quoted cell, no empty cells, no quoted rows); forms 18 and
17 are excluded first. -/
def is_form_4_body (data encoding delim qc : Str) : Bool × Option String :=
  if (is_form_18 data encoding delim qc).1 then (false, some "form_18")
  else if (is_form_17 data encoding delim qc).1 then (false, some "form_17")
  else
    let rows := split_file data
    if !every_row_has_delim rows delim then (false, some "no_delim")
    else if !multiple_cell_per_row rows delim (some qc) then (false, some "single_cell")
    else if !even_rows rows delim (some qc) then (false, some "uneven_rows")
    else if !more_than_one_row rows then (false, some "single_row")
    else
      match form4_rows delim qc rows false with
      | (_, some e) => (false, some e)
      | (found, none) =>
        if !found then (false, some "no_quoted_w_delim") else (true, none)

def is_form_4 : Str → Str → Str → Str → Bool × Option String :=
  form_escape_wrapper is_form_4_body

/-- Body of `is_form_7` (every row wrapped in one outer quote pair; the
stripped interior is re-validated through `is_form_2`).  The source reads
`row[0]`/`row[-1]`, which is modelled with `take`/`drop`; an empty row cannot
reach that check because `every_row_has_delim` fails first for the non-empty
delimiters this form is invoked with. -/
def is_form_7_body (data encoding delim qc : Str) : Bool × Option String :=
  let rows := split_file data
  if !every_row_has_delim rows delim then (false, some "no_delim")
  else if !more_than_one_row rows then (false, some "single_row")
  else if rows.any fun row =>
      !(row.take 1 == qc && row.drop (row.length - 1) == qc) then
    (false, some "not_quoted")
  else
    is_form_2 (List.intercalate ['\n'] (rows.map fun r => (r.drop 1).dropLast))
      encoding delim qc

def is_form_7 : Str → Str → Str → Str → Bool × Option String :=
  form_escape_wrapper is_form_7_body

/-- Form 8's cell loop: counts quoted and unquoted cells, stopping at the
first empty or non-elementary-unquoted cell. -/
def form8_cells (qc : Str) : List Str → Nat → Nat → Nat × Nat × Option String
  | [], q, u => (q, u, none)
  | cell :: rest, q, u =>
    if is_any_empty cell then (q, u, some "empty_cell")
    else if is_quoted_cell cell qc then form8_cells qc rest (q + 1) u
    else if !is_any_quoted_cell cell then
      if !is_elementary cell then (q, u + 1, some "non_elementary")
      else form8_cells qc rest q (u + 1)
    else form8_cells qc rest q u

/-- The part of `is_form_8` after its four cross-form exclusions: only
structural checks on the rows and cells of `data`, no reference to any other
form tester. -/
def is_form_8_rest (data encoding delim qc : Str) : Bool × Option String :=
  let rows := split_file data
  if !every_row_has_delim rows delim then (false, some "no_delim")
  else if !multiple_cell_per_row rows delim (some qc) then (false, some "single_cell")
  else if !even_rows rows delim (some qc) then (false, some "uneven_rows")
  else if !more_than_one_row rows then (false, some "single_row")
  else
    match form8_cells qc (rows.flatMap fun r => split_row r delim (some qc)) 0 0 with
    | (_, _, some e) => (false, some e)
    | (q, u, none) =>
      if q == 0 || u == 0 then (false, some "not quoted/unquoted mix")
      else (true, none)

/-- Body of `is_form_8` (some cells quoted, some not, no empty cells); forms
4, 13, 18 and 17 are excluded first, in source order. -/
def is_form_8_body (data encoding delim qc : Str) : Bool × Option String :=
  if (is_form_4 data encoding delim qc).1 then (false, some "form_4")
  else if (is_form_13 data encoding delim qc).1 then (false, some "form_13")
  else if (is_form_18 data encoding delim qc).1 then (false, some "form_18")
  else if (is_form_17 data encoding delim qc).1 then (false, some "form_17")
  else is_form_8_rest data encoding delim qc

def is_form_8 : Str → Str → Str → Str → Bool × Option String :=
  form_escape_wrapper is_form_8_body

/-- Form 10's cell loop: counts quoted empty cells while checking each cell,
in source order. -/
def form10_cells (qc : Str) : List Str → Nat → Nat × Option String
  | [], n => (n, none)
  | cell :: rest, n =>
    if is_empty_unquoted cell then (n, some "empty_unquoted")
    else
      let n' := if is_empty_quoted cell qc then n + 1 else n
      if !is_quoted_cell cell qc then (n', some "unquoted_cell")
      else if has_nested_quotes cell qc then (n', some "nested_quotes")
      else form10_cells qc rest n'

/-- Body of `is_form_10` (all cells quoted, quoted empties allowed and at
least one required, no nested quotes). -/
def is_form_10_body (data encoding delim qc : Str) : Bool × Option String :=
  let rows := split_file data
  if !every_row_has_delim rows delim then (false, some "no_delim")
  else if !multiple_cell_per_row rows delim (some qc) then (false, some "single_cell")
  else if !even_rows rows delim (some qc) then (false, some "uneven_rows")
  else if !more_than_one_row rows then (false, some "single_row")
  else
    match form10_cells qc (rows.flatMap fun r => split_row r delim (some qc)) 0 with
    | (_, some e) => (false, some e)
    | (n, none) => if n == 0 then (false, some "no_empty") else (true, none)

def is_form_10 : Str → Str → Str → Str → Bool × Option String :=
  form_escape_wrapper is_form_10_body

/-- Form 11's inner cell loop: counts the row's empty unquoted cells
(`continue` in the source) and stops at the first failing check. -/
def form11_cells : List Str → Nat → Nat × Option String
  | [], n => (n, none)
  | cell :: rest, n =>
    if is_empty_unquoted cell then form11_cells rest (n + 1)
    else if is_any_quoted_cell cell then (n, some "quoted_cell")
    else if is_any_partial_quoted_cell cell then (n, some "partial_quoted_cell")
    else if !is_elementary cell then (n, some "non_elementary")
    else form11_cells rest n

/-- Form 11's row loop: at most one empty cell per row, total accumulated
across rows. -/
def form11_rows (delim : Str) : List Str → Nat → Nat × Option String
  | [], total => (total, none)
  | row :: rest, total =>
    match form11_cells (split_row row delim none) 0 with
    | (_, some e) => (total, some e)
    | (n, none) =>
      if n > 1 then (total, some "many_empty")
      else form11_rows delim rest (total + n)

/-- Body of `is_form_11` (all unquoted, at most one empty per row, at least
one empty per file); forms 13 and 17 are excluded first. -/
def is_form_11_body (data encoding delim qc : Str) : Bool × Option String :=
  if (is_form_13 data encoding delim qc).1 then (false, some "form_13")
  else if (is_form_17 data encoding delim qc).1 then (false, some "form_17")
  else
    let rows := split_file data
    if !every_row_has_delim rows delim then (false, some "no_delim")
    else if !multiple_cell_per_row rows delim none then (false, some "single_cell")
    else if !even_rows rows delim none then (false, some "uneven_rows")
    else if !more_than_one_row rows then (false, some "single_row")
    else
      match form11_rows delim rows 0 with
      | (_, some e) => (false, some e)
      | (total, none) =>
        if total == 0 then (false, some "no_empty") else (true, none)

def is_form_11 : Str → Str → Str → Str → Bool × Option String :=
  form_escape_wrapper is_form_11_body

/-! ### The classification orchestrator (`detect_form`) -/

/-- One entry of the `forms` list in `detect_form`: the tester's numeric ID,
the tester, and its declared candidate delimiter and quotechar values. -/
structure FormEntry where
  id : Nat
  tester : Str → Str → Str → Str → Bool × Option String
  delims : List Str
  quotechars : List Str

/-- `DELIMS = set([",", ";", "|", "\t"])`.  The source uses a Python set whose
iteration order is unspecified; the model fixes the order in which the
literals are written.  (Only the order of the collected matches, not their
contents, depends on this choice.) -/
def DELIMS : List Str := [[','], [';'], ['|'], ['\t']]

/-- The `forms` list of `detect_form`, in source order, with the option
dictionaries inlined (`option_dict_1`, `option_dict_2`, `option_dict_4` and
the per-form literals). -/
def catalogue : List FormEntry :=
  [⟨1, is_form_1, DELIMS, [[dquote], [squote]]⟩,
   ⟨2, is_form_2, DELIMS, [[]]⟩,
   ⟨4, is_form_4, DELIMS, [[dquote], [squote]]⟩,
   ⟨5, is_form_5, [[',']], [[]]⟩,
   ⟨6, is_form_6, [[]], [[]]⟩,
   ⟨7, is_form_7, DELIMS, [[dquote], [squote]]⟩,
   ⟨8, is_form_8, DELIMS, [[dquote], [squote]]⟩,
   ⟨9, is_form_9, [[]], [[dquote], [squote]]⟩,
   ⟨10, is_form_10, DELIMS, [[dquote], [squote]]⟩,
   ⟨11, is_form_11, DELIMS, [[]]⟩,
   ⟨12, is_form_12, [[',']], [[]]⟩,
   ⟨13, is_form_13, [[',']], [[dquote], []]⟩,
   ⟨14, is_form_14, [['\t']], [[]]⟩,
   ⟨15, is_form_15, [[';']], [[]]⟩,
   ⟨17, is_form_17, [[',']], [[], [dquote]]⟩,
   ⟨18, is_form_18, [[',']], [[], [dquote]]⟩,
   ⟨19, is_form_19, [[',']], [[], [dquote]]⟩]

/-- A candidate parameter record, as recorded on a positive match (the
orchestrator sets `escapechar` to the empty string before appending). -/
structure Params where
  delim : Str
  quotechar : Str
  escapechar : Str
deriving DecidableEq

/-- `dict_product` applied to a form's option dictionary: the cartesian
product of its delimiter and quotechar candidates, delimiters outermost (the
dictionaries list `delim` before `quotechar`). -/
def dict_product (e : FormEntry) : List (Str × Str) :=
  e.delims.flatMap fun d => e.quotechars.map fun q => (d, q)

/-- The match-collection loop of `detect_form`: every `(form, params)`
combination whose tester returns a positive status, with `escapechar` forced
to the empty string. -/
def detect_form_matches (data encoding : Str) : List (Nat × Params) :=
  catalogue.flatMap fun e =>
    (dict_product e).filterMap fun dq =>
      if (e.tester data encoding dq.1 dq.2).1 then some (e.id, ⟨dq.1, dq.2, []⟩)
      else none

/-- The outcome of one classification run.  `fail` models the early return on
a load failure (loading itself is an external collaborator and is not
modelled); `ambiguous` models the `ValueError` raised on two or more
matches. -/
inductive Verdict
  | fail
  | noForm
  | found (id : Nat) (p : Params)
  | ambiguous
deriving DecidableEq

/-- The verdict computed by `detect_form` from the collected matches. -/
def detect_form_verdict (data encoding : Str) : Verdict :=
  match detect_form_matches data encoding with
  | [] => .noForm
  | [m] => .found m.1 m.2
  | _ :: _ :: _ => .ambiguous

/-- The form IDs passed to `record_form` during one run: each positive match's
ID as it is found, or the single ID `0` when nothing matched. -/
def detect_recorded_ids (data encoding : Str) : List Nat :=
  match detect_form_matches data encoding with
  | [] => [0]
  | ms => ms.map Prod.fst

/-! ### The `Dialect` value object (`scripts/common/dialect.py`) -/

/-- A `Dialect` carries the three string attributes listed in `ATTRIBUTES`. -/
structure Dialect where
  delimiter : Str
  quotechar : Str
  escapechar : Str
deriving DecidableEq

/-- `Dialect.__key`: the attribute triple used by `__eq__` and `__hash__`. -/
def Dialect.key (d : Dialect) : Str × Str × Str :=
  (d.delimiter, d.quotechar, d.escapechar)

/-- A Python value as seen by `Dialect.__eq__`: either a `Dialect` or any
other object (whose further content is irrelevant to the comparison). -/
inductive PyValue
  | dialect (d : Dialect)
  | other (tag : String)

/-- `Dialect.__eq__`: `False` for non-`Dialect` arguments, componentwise key
comparison otherwise. -/
def dialect_eq (d : Dialect) (v : PyValue) : Bool :=
  match v with
  | .dialect e => d.key == e.key
  | .other _ => false

/-- `Dialect.__hash__` is `hash(self.__key())` for Python's opaque `hash`,
modelled as an arbitrary function of the key triple. -/
def dialect_hash (hashf : Str × Str × Str → Nat) (d : Dialect) : Nat :=
  hashf d.key

/-! ### Helper lemmas about the splitter -/

theorem pySplitF_ne_nil (sep : Str) (fuel : Nat) (s : Str) :
    pySplitF sep fuel s ≠ [] := by
  cases s with
  | nil => cases fuel <;> simp [pySplitF]
  | cons c rest =>
    cases fuel with
    | zero => simp [pySplitF]
    | succ fuel =>
      rw [pySplitF]
      split
      · simp
      · cases h : pySplitF sep fuel rest <;> simp [consSplitHead]

theorem pySplit_ne_nil (sep : Str) (s : Str) : pySplit sep s ≠ [] :=
  pySplitF_ne_nil sep s.length s

/-- The first component of `pySplitF` is an initial segment of the input. -/
theorem pySplitF_head_starts (sep : Str) :
    ∀ fuel (s : Str), s.length ≤ fuel →
      ∀ r rs, pySplitF sep fuel s = r :: rs → r <+: s := by
  intro fuel
  induction fuel with
  | zero =>
    intro s hs r rs h
    rw [List.length_eq_zero.mp (Nat.le_zero.mp hs)] at h ⊢
    rw [pySplitF] at h
    cases h
    exact List.nil_prefix
  | succ fuel ih =>
    intro s hs r rs h
    cases s with
    | nil =>
      rw [pySplitF] at h
      cases h
      exact List.nil_prefix
    | cons c rest =>
      simp only [List.length_cons, Nat.succ_le_succ_iff] at hs
      rw [pySplitF] at h
      split at h
      · cases h
        exact List.nil_prefix
      · rcases hE : pySplitF sep fuel rest with _ | ⟨r0, rs0⟩
        · exact absurd hE (pySplitF_ne_nil sep fuel rest)
        · rw [hE] at h
          simp only [consSplitHead] at h
          injection h with h1 h2
          subst h1
          obtain ⟨t, ht⟩ := ih rest hs r0 rs0 hE
          exact ⟨t, by simp [← ht]⟩

/-- Every component of `pySplitF` is a contiguous substring of the input. -/
theorem pySplitF_mem_substring (sep : Str) :
    ∀ fuel (s : Str), s.length ≤ fuel → ∀ r, r ∈ pySplitF sep fuel s → r <:+: s := by
  intro fuel
  induction fuel with
  | zero =>
    intro s hs r h
    rw [List.length_eq_zero.mp (Nat.le_zero.mp hs)] at h ⊢
    rw [pySplitF] at h
    simp at h
    simp [h]
  | succ fuel ih =>
    intro s hs r h
    cases s with
    | nil =>
      rw [pySplitF] at h
      simp at h
      simp [h]
    | cons c rest =>
      simp only [List.length_cons, Nat.succ_le_succ_iff] at hs
      rw [pySplitF] at h
      split at h
      · rcases List.mem_cons.mp h with h1 | h1
        · simp [h1]
        · have hrec := ih (rest.drop (sep.length - 1))
            (Nat.le_trans (by simp) hs) r h1
          exact List.infix_cons (hrec.trans (List.drop_suffix _ _).isInfix)
      · rcases hE : pySplitF sep fuel rest with _ | ⟨r0, rs0⟩
        · exact absurd hE (pySplitF_ne_nil sep fuel rest)
        · rw [hE] at h
          simp only [consSplitHead] at h
          rcases List.mem_cons.mp h with h1 | h1
          · obtain ⟨t, ht⟩ := pySplitF_head_starts sep fuel rest hs r0 rs0 hE
            exact h1 ▸ List.IsPrefix.isInfix ⟨t, by simp [← ht]⟩
          · exact List.infix_cons (ih rest hs r (hE ▸ List.mem_cons_of_mem r0 h1))

theorem pySplit_mem_substring (sep : Str) (s r : Str) (h : r ∈ pySplit sep s) :
    r <:+: s :=
  pySplitF_mem_substring sep s.length s (Nat.le_refl _) r h

/-- When splitting on a single character that the input does not end with, the
final component is non-empty. -/
theorem pySplitF_getLast_ne_nil (c : Char) :
    ∀ fuel (s : Str), s.length ≤ fuel → s ≠ [] → s.getLast? ≠ some c →
      ∀ l, (pySplitF [c] fuel s).getLast? = some l → l ≠ [] := by
  intro fuel
  induction fuel with
  | zero =>
    intro s hs h0 _ _ _
    exact absurd (List.length_eq_zero.mp (Nat.le_zero.mp hs)) h0
  | succ fuel ih =>
    intro s hs h0 hlast l hl
    cases s with
    | nil => exact absurd rfl h0
    | cons a rest =>
      simp only [List.length_cons, Nat.succ_le_succ_iff] at hs
      rw [pySplitF] at hl
      split at hl
      case isTrue hcond =>
        have hac : c = a := (List.cons_prefix_cons.mp hcond.2).1
        simp only [show ([c] : Str).length - 1 = 0 from rfl, List.drop_zero] at hl
        cases rest with
        | nil =>
          exact absurd (by simp [hac]) hlast
        | cons b rest' =>
          rcases hE : pySplitF [c] fuel (b :: rest') with _ | ⟨t0, ts⟩
          · exact absurd hE (pySplitF_ne_nil _ _ _)
          · rw [hE, List.getLast?_cons_cons] at hl
            refine ih (b :: rest') hs (by simp) ?_ l (hE ▸ hl)
            simpa using hlast
      case isFalse hcond =>
        cases rest with
        | nil =>
          cases fuel <;>
            · rw [pySplitF] at hl
              simp [consSplitHead] at hl
              simp [← hl]
        | cons b rest' =>
          rcases hE : pySplitF [c] fuel (b :: rest') with _ | ⟨r0, rs0⟩
          · exact absurd hE (pySplitF_ne_nil _ _ _)
          · rw [hE] at hl
            simp only [consSplitHead] at hl
            cases rs0 with
            | nil =>
              simp at hl
              simp [← hl]
            | cons y ys =>
              rw [List.getLast?_cons_cons] at hl
              refine ih (b :: rest') hs (by simp) (by simpa using hlast) l ?_
              rw [hE, List.getLast?_cons_cons]
              exact hl

theorem pySplit_getLast_ne_nil (c : Char) (s : Str) (h0 : s ≠ [])
    (hlast : s.getLast? ≠ some c) :
    ∀ l, (pySplit [c] s).getLast? = some l → l ≠ [] :=
  pySplitF_getLast_ne_nil c s.length s (Nat.le_refl _) h0 hlast

/-- The last element surviving `rdropWhile` does not satisfy the predicate. -/
theorem rdropWhile_getLast_not (p : Char → Bool) (l : Str) (a : Char)
    (h : (l.rdropWhile p).getLast? = some a) : p a = false := by
  rw [List.rdropWhile, List.getLast?_reverse] at h
  have H := List.head?_dropWhile_not p l.reverse
  rw [h] at H
  exact H

theorem rdropWhile_eq_self_of_all (p : Char → Bool) (l : Str)
    (h : ∀ x ∈ l, p x = false) : l.rdropWhile p = l := by
  rw [List.rdropWhile_eq_self_iff]
  intro hl
  simp [h (l.getLast hl) (List.getLast_mem hl)]

theorem strip_trailing_crnl_starts (data : Str) :
    strip_trailing_crnl data <+: data :=
  List.IsPrefix.trans ( List.rdropWhile_prefix _ _) ( List.rdropWhile_prefix _ _)

/-- Every row produced by `split_file` is a contiguous substring of the
content. -/
theorem split_file_row_substring (data row : Str) (h : row ∈ split_file data) :
    row <:+: data := by
  have hd : strip_trailing_crnl data <+: data := strip_trailing_crnl_starts data
  simp only [split_file] at h
  split at h
  · exact (pySplit_mem_substring _ _ _ h).trans hd.isInfix
  · split at h
    · exact (pySplit_mem_substring _ _ _ h).trans hd.isInfix
    · split at h
      · exact (pySplit_mem_substring _ _ _ h).trans hd.isInfix
      · obtain ⟨ch, hch, rfl⟩ := List.mem_map.mp h
        obtain ⟨s, t, ht⟩ := List.append_of_mem hch
        exact List.IsInfix.trans ⟨s, t, by simp [ht]⟩ hd.isInfix

theorem splitRowLoop_append (delim qs : Str) (s t : Str)
    (st : List Str × Str × Bool) :
    splitRowLoop delim qs (s ++ t) st =
      splitRowLoop delim qs t (splitRowLoop delim qs s st) := by
  induction s generalizing st with
  | nil => simp [splitRowLoop]
  | cons c rest ih =>
    rcases st with ⟨cells, acc, inq⟩
    simp only [List.cons_append, splitRowLoop]
    split_ifs <;> exact ih _

/-! ### Concrete inputs used by the claim theorems -/

/-- A file matching both form 2 and form 14 with delimiter tab and no
quotechar. -/
def c1_data : Str := "Format is tab separated\tx\na\tb".toList

/-- The single-line content of literal scenario 3. -/
def c3_data : Str := "hello".toList

/-- CRLF content with one trailing blank line. -/
def c4_data : Str := "a\r\n\r\n".toList

/-- A file matching form 4 with delimiter comma and double quotechar:
`a,"b,c"` on the first line and `d,"e,f"` on the second. -/
def c8_data : Str :=
  ['a', ',', dquote, 'b', ',', 'c', dquote, '\n', 'd', ',', dquote, 'e', ',', 'f', dquote]

/-- The fully quoted file of literal scenario 1: `"a","b"` then `"c","d"`. -/
def c9_data : Str :=
  [dquote, 'a', dquote, ',', dquote, 'b', dquote, '\n',
   dquote, 'c', dquote, ',', dquote, 'd', dquote]

/-- Content with a backslash immediately before a comma. -/
def c7_data : Str := [bslash, ',', 'a', ',', 'b']

/-! ### Claim theorems -/

/-- C1: the claim states that for every decoded content and encoding the 17
form testers yield at most one positive `(form, params)` combination over
their declared parameter sets.  The code violates this: on `c1_data` both
form 2 and form 14 match with delimiter tab and empty quotechar, and
`detect_form` consequently reaches its `ValueError` branch (modelled as
`Verdict.ambiguous`), which the source itself treats as an impossible
catalogue defect. -/
theorem C1_two_positive_matches :
    (2, (⟨['\t'], [], []⟩ : Params)) ∈ detect_form_matches c1_data [] ∧
    (14, (⟨['\t'], [], []⟩ : Params)) ∈ detect_form_matches c1_data [] ∧
    detect_form_verdict c1_data [] = Verdict.ambiguous := by decide

/-- C2: the verdict of `detect_form` is determined by the number of collected
positive matches: zero matches give the no-form verdict and record form ID 0,
exactly one match gives that form and its parameters as the verdict (and
records its ID), and two or more matches give the fatal ambiguous outcome,
which is never a `found` verdict. -/
theorem C2_verdict_from_match_count (data encoding : Str) :
    (detect_form_matches data encoding = [] →
      detect_form_verdict data encoding = Verdict.noForm ∧
      detect_recorded_ids data encoding = [0]) ∧
    (∀ id p, detect_form_matches data encoding = [(id, p)] →
      detect_form_verdict data encoding = Verdict.found id p ∧
      detect_recorded_ids data encoding = [id]) ∧
    (2 ≤ (detect_form_matches data encoding).length →
      detect_form_verdict data encoding = Verdict.ambiguous ∧
      ∀ id p, detect_form_verdict data encoding ≠ Verdict.found id p) := by
  refine ⟨?_, ?_, ?_⟩
  · intro h
    simp [detect_form_verdict, detect_recorded_ids, h]
  · intro id p h
    simp [detect_form_verdict, detect_recorded_ids, h]
  · intro h
    rcases hE : detect_form_matches data encoding with _ | ⟨a, _ | ⟨b, rest⟩⟩
    · rw [hE] at h
      simp at h
    · rw [hE] at h
      simp at h
    · simp [detect_form_verdict, hE]

theorem C2_verdict_from_match_count_witness :
    detect_form_verdict c3_data [] = Verdict.found 6 ⟨[], [], []⟩ ∧
    detect_recorded_ids c3_data [] = [6] :=
  (C2_verdict_from_match_count c3_data []).2.1 6 ⟨[], [], []⟩ (by decide)

/-- C3: the claim states that the single-line content `hello`, classified with
no delimiter and no quotechar, is rejected by every multi-row-dependent form
with reason `single_row` and that the overall verdict is no-match (form 0).
The code disagrees: `split_file` returns the bare string, whose five
characters act as five rows, so `more_than_one_row` holds and `is_form_6`
matches; the verdict is form 6, not no-match. -/
theorem C3_hello_matches_form_6 :
    split_file c3_data = [['h'], ['e'], ['l'], ['l'], ['o']] ∧
    more_than_one_row (split_file c3_data) = true ∧
    is_form_6 c3_data [] [] [] = (true, none) ∧
    detect_form_verdict c3_data [] = Verdict.found 6 ⟨[], [], []⟩ := by decide

/-- C4 (amended): `split_file` strips all trailing `\n` then all trailing `\r`
and splits on the detected line ending; when the content stays within a single
line-ending convention (it contains no `\r`, or no `\n`), trailing blank lines
never produce an empty trailing row.  (For CRLF content the original claim
fails, see the counterexample.) -/
theorem C4_no_trailing_empty_row (data : Str)
    (h : (∀ c ∈ data, c ≠ '\r') ∨ (∀ c ∈ data, c ≠ '\n')) :
    ∀ l, (split_file data).getLast? = some l → l ≠ [] := by
  intro l hl
  have hsub : ∀ x ∈ strip_trailing_crnl data, x ∈ data := fun x hx =>
    (strip_trailing_crnl_starts data).sublist.subset hx
  simp only [split_file] at hl
  rcases h with hno | hno
  · -- no carriage return anywhere in the content
    have hdr : ∀ x ∈ strip_trailing_crnl data, x ≠ '\r' := fun x hx => hno x (hsub x hx)
    have h1 : ¬ (['\r', '\n'] <:+: strip_trailing_crnl data) := fun hc =>
      hdr '\r' (hc.sublist.subset (by simp)) rfl
    rw [if_neg h1] at hl
    by_cases h2 : ['\n'] <:+: strip_trailing_crnl data
    · rw [if_pos h2] at hl
      have hdne : strip_trailing_crnl data ≠ [] := by
        intro he
        rw [he] at h2
        simp at h2
      have hid : (data.rdropWhile (· == '\n')).rdropWhile (· == '\r') =
          data.rdropWhile (· == '\n') := by
        refine rdropWhile_eq_self_of_all _ _ fun x hx => ?_
        have hxd : x ∈ data := ( List.rdropWhile_prefix _ _).sublist.subset hx
        simpa using hno x hxd
      have hlast : (strip_trailing_crnl data).getLast? ≠ some '\n' := by
        intro hc
        rw [strip_trailing_crnl, hid] at hc
        simpa using rdropWhile_getLast_not (· == '\n') data '\n' hc
      exact pySplit_getLast_ne_nil '\n' _ hdne hlast l hl
    · rw [if_neg h2] at hl
      by_cases h3 : ['\r'] <:+: strip_trailing_crnl data
      · exact absurd rfl (hdr '\r' (h3.sublist.subset (by simp)))
      · rw [if_neg h3] at hl
        rw [List.getLast?_map] at hl
        rcases hE : (strip_trailing_crnl data).getLast? with _ | c <;> rw [hE] at hl
        · simp at hl
        · simp only [Option.map_some'] at hl
          injection hl with hlc
          simp [← hlc]
  · -- no newline anywhere in the content
    have hdn : ∀ x ∈ strip_trailing_crnl data, x ≠ '\n' := fun x hx => hno x (hsub x hx)
    have h1 : ¬ (['\r', '\n'] <:+: strip_trailing_crnl data) := fun hc =>
      hdn '\n' (hc.sublist.subset (by simp)) rfl
    have h2 : ¬ (['\n'] <:+: strip_trailing_crnl data) := fun hc =>
      hdn '\n' (hc.sublist.subset (by simp)) rfl
    rw [if_neg h1, if_neg h2] at hl
    by_cases h3 : ['\r'] <:+: strip_trailing_crnl data
    · rw [if_pos h3] at hl
      have hdne : strip_trailing_crnl data ≠ [] := by
        intro he
        rw [he] at h3
        simp at h3
      have hlast : (strip_trailing_crnl data).getLast? ≠ some '\r' := by
        intro hc
        simpa using rdropWhile_getLast_not (· == '\r') _ '\r' hc
      exact pySplit_getLast_ne_nil '\r' _ hdne hlast l hl
    · rw [if_neg h3] at hl
      rw [List.getLast?_map] at hl
      rcases hE : (strip_trailing_crnl data).getLast? with _ | c <;> rw [hE] at hl
      · simp at hl
      · simp only [Option.map_some'] at hl
        injection hl with hlc
        simp [← hlc]

theorem C4_no_trailing_empty_row_witness : (['b'] : Str) ≠ [] :=
  C4_no_trailing_empty_row "a\nb\n\n".toList (Or.inl (by decide)) ['b'] (by decide)

/-- C4 counterexample: for CRLF content with one trailing blank line the
stripping removes only the final `\n` run and `\r` run, a `\r\n` remains, and
the split produces a spurious empty trailing row, contradicting the claim's
"never produce a spurious empty trailing row". -/
theorem C4_counterexample :
    split_file c4_data = [['a'], []] ∧
    (split_file c4_data).getLast? = some [] := by decide

/-- C5 (amended): in the quote-aware branch (quotechar occurring in the row),
a row that ends exactly on a top-level delimiter yields no trailing cell for
that delimiter: the delimiter commits the pending accumulator as the final
cell and the empty post-delimiter accumulator is dropped.  (In the naive
branch the claim fails: Python's `split` keeps the trailing empty cell, see
the counterexample.) -/
theorem C5_trailing_delim_commits_acc (pre : Str) (d : Char) (qs : Str)
    (hq : qs <:+: pre ++ [d])
    (hb : (splitRowLoop [d] qs pre ([], [], false)).2.2 = false) :
    split_row (pre ++ [d]) [d] (some qs) =
      (splitRowLoop [d] qs pre ([], [], false)).1 ++
        [(splitRowLoop [d] qs pre ([], [], false)).2.1] := by
  rcases hE : splitRowLoop [d] qs pre ([], [], false) with ⟨cells, acc, inq⟩
  rw [hE] at hb
  simp only at hb
  subst hb
  simp only [split_row, if_pos hq, splitRowLoop_append, hE, splitRowLoop,
    beq_self_eq_true, Bool.not_false, Bool.and_self, if_true]
  simp [splitRowLoop]

theorem C5_trailing_delim_commits_acc_witness :
    split_row ([dquote, 'a', dquote] ++ [',']) [','] (some [dquote]) =
      (splitRowLoop [','] [dquote] [dquote, 'a', dquote] ([], [], false)).1 ++
        [(splitRowLoop [','] [dquote] [dquote, 'a', dquote] ([], [], false)).2.1] :=
  C5_trailing_delim_commits_acc [dquote, 'a', dquote] ',' [dquote] (by decide) (by decide)

/-- C5 counterexample: with quotechar `"` absent from the row `a,b,`, the
naive branch applies and the result keeps a trailing empty cell even though
the row ends exactly on a delimiter, contradicting the claim's universal "no
trailing empty cell". -/
theorem C5_counterexample :
    "a,b,".toList = "a,b".toList ++ [','] ∧
    split_row "a,b,".toList [','] (some [dquote]) = [['a'], ['b'], []] ∧
    (split_row "a,b,".toList [','] (some [dquote])).getLast? = some [] := by decide

/-- C6: whenever the quotechar is absent (`None`) or does not occur in the
content, `split_row` on any row of that content is exactly the naive
delimiter split (Python's `str.split`, no quote awareness). -/
theorem C6_naive_split_when_quotechar_absent (content delim : Str)
    (qc : Option Str)
    (h : qc = none ∨ ∃ qs, qc = some qs ∧ ¬ qs <:+: content) :
    ∀ row ∈ split_file content, split_row row delim qc = pySplit delim row := by
  intro row hrow
  rcases h with rfl | ⟨qs, rfl, hq⟩
  · rfl
  · have hsub : row <:+: content := split_file_row_substring content row hrow
    have hnr : ¬ qs <:+: row := fun hc => hq (hc.trans hsub)
    simp [split_row, hnr]

theorem C6_naive_split_when_quotechar_absent_witness :
    split_row ['a', ',', 'b'] [','] (some [dquote]) = pySplit [','] ['a', ',', 'b'] :=
  C6_naive_split_when_quotechar_absent "a,b\nc,d".toList [','] (some [dquote])
    (Or.inr ⟨[dquote], rfl, by decide⟩) ['a', ',', 'b'] (by decide)

/-- C7: `maybe_has_escapechar` returns false when neither the delimiter nor
the quotechar occurs in the content; otherwise it is true exactly when some
adjacent character pair has its second character equal to the delimiter or the
quotechar and its first character a plausible escape character; and whenever
it is true, every form tester of the catalogue returns
`(False, "maybe_escape")`. -/
theorem C7_escape_precheck_spec (data encoding delim qc : Str) :
    ((¬ delim <:+: data ∧ ¬ qc <:+: data) →
      maybe_has_escapechar data encoding delim qc = false) ∧
    ((delim <:+: data ∨ qc <:+: data) →
      (maybe_has_escapechar data encoding delim qc = true ↔
        ∃ uv ∈ pairwise data, ([uv.2] = delim ∨ [uv.2] = qc) ∧
          is_potential_escapechar uv.1 encoding = true)) ∧
    (maybe_has_escapechar data encoding delim qc = true →
      ∀ e ∈ catalogue, e.tester data encoding delim qc = (false, some "maybe_escape")) := by
  refine ⟨?_, ?_, ?_⟩
  · intro h
    simp [maybe_has_escapechar, h]
  · intro h
    have hcond : ¬ (¬ delim <:+: data ∧ ¬ qc <:+: data) := by tauto
    rw [maybe_has_escapechar, if_neg hcond]
    simp [List.any_eq_true, Bool.and_eq_true, Bool.or_eq_true, beq_iff_eq, and_assoc]
  · intro hmhe e he
    simp only [catalogue, List.mem_cons, List.not_mem_nil, or_false] at he
    rcases he with rfl|rfl|rfl|rfl|rfl|rfl|rfl|rfl|rfl|rfl|rfl|rfl|rfl|rfl|rfl|rfl|rfl <;>
      simp [is_form_1, is_form_2, is_form_4, is_form_5, is_form_6, is_form_7,
        is_form_8, is_form_9, is_form_10, is_form_11, is_form_12, is_form_13,
        is_form_14, is_form_15, is_form_17, is_form_18, is_form_19,
        form_escape_wrapper, hmhe]

theorem C7_escape_precheck_spec_witness :
    (⟨1, is_form_1, DELIMS, [[dquote], [squote]]⟩ : FormEntry).tester
        c7_data [] [','] [] = (false, some "maybe_escape") :=
  (C7_escape_precheck_spec c7_data [] [','] []).2.2 (by decide)
    ⟨1, is_form_1, DELIMS, [[dquote], [squote]]⟩
    (by unfold catalogue; exact List.Mem.head _)

/-- C8 (amended): form 8 excludes exactly four sibling forms — 4, 13, 18 and
17, checked in that order: a positive sibling result makes form 8 return
not-matched with that sibling's reason code, and when all four are negative
the outcome is `is_form_8_rest`, which performs only structural checks and
consults no other tester.  (The claim's "exactly three" fails on form 4, see
the counterexample.) -/
theorem C8_form8_exclusions (data encoding delim qc : Str)
    (hesc : maybe_has_escapechar data encoding delim qc = false) :
    ((is_form_4 data encoding delim qc).1 = true →
      is_form_8 data encoding delim qc = (false, some "form_4")) ∧
    ((is_form_4 data encoding delim qc).1 = false →
      (is_form_13 data encoding delim qc).1 = true →
      is_form_8 data encoding delim qc = (false, some "form_13")) ∧
    ((is_form_4 data encoding delim qc).1 = false →
      (is_form_13 data encoding delim qc).1 = false →
      (is_form_18 data encoding delim qc).1 = true →
      is_form_8 data encoding delim qc = (false, some "form_18")) ∧
    ((is_form_4 data encoding delim qc).1 = false →
      (is_form_13 data encoding delim qc).1 = false →
      (is_form_18 data encoding delim qc).1 = false →
      (is_form_17 data encoding delim qc).1 = true →
      is_form_8 data encoding delim qc = (false, some "form_17")) ∧
    ((is_form_4 data encoding delim qc).1 = false →
      (is_form_13 data encoding delim qc).1 = false →
      (is_form_18 data encoding delim qc).1 = false →
      (is_form_17 data encoding delim qc).1 = false →
      is_form_8 data encoding delim qc = is_form_8_rest data encoding delim qc) := by
  refine ⟨?_, ?_, ?_, ?_, ?_⟩ <;> intros <;>
    simp_all [is_form_8, is_form_8_body, form_escape_wrapper]

theorem C8_form8_exclusions_witness :
    is_form_8 c8_data [] [','] [dquote] = (false, some "form_4") :=
  (C8_form8_exclusions c8_data [] [','] [dquote] (by decide)).1 (by decide)

/-- C8 counterexample: on `c8_data` the sibling form 4 matches and form 8
rejects with reason `form_4` — a fourth cross-form exclusion beyond the three
the claim allows. -/
theorem C8_counterexample :
    is_form_4 c8_data [] [','] [dquote] = (true, none) ∧
    is_form_8 c8_data [] [','] [dquote] = (false, some "form_4") := by decide

/-- C9: every positive `(form, params)` combination collected by `detect_form`
has its `escapechar` field equal to the empty string, whatever delimiter and
quotechar were tried. -/
theorem C9_match_escapechar_empty (data encoding : Str) :
    ∀ m ∈ detect_form_matches data encoding, m.2.escapechar = [] := by
  intro m hm
  simp only [detect_form_matches, List.mem_flatMap, List.mem_filterMap] at hm
  obtain ⟨e, -, dq, -, hif⟩ := hm
  by_cases h : (e.tester data encoding dq.1 dq.2).1 = true
  · simp only [h, if_true] at hif
    injection hif with hm
    rw [← hm]
  · simp [h] at hif

theorem C9_match_escapechar_empty_witness :
    ((1 : Nat), (⟨[','], [dquote], []⟩ : Params)).2.escapechar = ([] : Str) :=
  C9_match_escapechar_empty c9_data [] (1, ⟨[','], [dquote], []⟩) (by decide)

/-- C10: two `Dialect` values compare equal exactly when their
(delimiter, quotechar, escapechar) triples agree componentwise, a non-`Dialect`
value never compares equal to a `Dialect`, and equal `Dialect`s have equal
hashes for any hash function of the key triple. -/
theorem C10_dialect_eq_hash :
    (∀ d e : Dialect, dialect_eq d (PyValue.dialect e) = true ↔
      d.delimiter = e.delimiter ∧ d.quotechar = e.quotechar ∧
        d.escapechar = e.escapechar) ∧
    (∀ (d : Dialect) (tag : String), dialect_eq d (PyValue.other tag) = false) ∧
    (∀ (hashf : Str × Str × Str → Nat) (d e : Dialect),
      dialect_eq d (PyValue.dialect e) = true →
      dialect_hash hashf d = dialect_hash hashf e) := by
  refine ⟨?_, ?_, ?_⟩
  · intro d e
    simp [dialect_eq, Dialect.key, Prod.ext_iff]
  · intro d tag
    rfl
  · intro hashf d e h
    have hk : d.key = e.key := by simpa [dialect_eq] using h
    simp [dialect_hash, hk]

theorem C10_dialect_eq_hash_witness :
    dialect_hash (fun _ => 0) ⟨[','], [dquote], []⟩ =
      dialect_hash (fun _ => 0) ⟨[','], [dquote], []⟩ :=
  C10_dialect_eq_hash.2.2 (fun _ => 0) ⟨[','], [dquote], []⟩ ⟨[','], [dquote], []⟩
    (by decide)

end CSVW
